import Mathlib

/-!
Verification of the path-naming utility in bin/local_file_manager.py
(class LocalFileName, DESI Y1 clustering and fiber-collision file names).

Shallow embedding conventions:
* Python floats are modelled as exact rationals.  The repository only ever
  formats short decimal literals (0.8, 1.6, 1.1, 0.95, 0.4, 0.5), for which
  fixed-point formatting of the rational agrees with CPython formatting of
  the underlying double; rounding ties and negative zero never occur.
* Attribute values are a dynamic type PyVal mirroring the values the class
  stores: strings, ints, floats, bools, pairs (the zrange tuple), None, and
  a reference to a sculpt-attributes dict held in an explicit heap.
  The heap makes the aliasing behaviour of copy.copy observable: a shallow
  dict copy shares the nested ells list.
* Exceptions are modelled by Except String; messages abbreviate CPython
  messages.  An error result discards the partially mutated object, except
  in update, which returns the mutated record together with the error so
  that partial application is observable (as it is on the Python object).
* Where CPython behaviour is outside the model (repr of floats, tuples or
  dicts reached through str()), the embedding returns a model-boundary
  error; no theorem below exercises those values.
-/

namespace DesiFiles

/-- A dynamic Python value as stored in LocalFileName attributes. -/
inductive PyVal where
  | str (s : String)
  | int (n : Int)
  | rat (q : ℚ)
  | bool (b : Bool)
  | pair (a b : ℚ)
  | none
  | dictRef (a : Nat)
  deriving DecidableEq, Repr

/-- The sculpt_attrs dict (keys ells, kobsmax, ktmax, capsig, difflfac,
covtype).  The ells entry is a reference to a mutable list in the heap. -/
structure SculptDict where
  ells : Nat
  kobsmax : ℚ
  ktmax : ℚ
  capsig : Int
  difflfac : Int
  covtype : String
  deriving DecidableEq, Repr

/-- Heap of mutable Python objects reachable from the record: sculpt dicts
and the integer lists they reference.  Addresses are list indices. -/
structure Heap where
  dicts : List SculptDict
  lists : List (List Int)
  deriving DecidableEq, Repr

def emptyHeap : Heap := { dicts := [], lists := [] }

/-- Overwrite the dict at address a (mutation of a Python dict object). -/
def setDict (h : Heap) (a : Nat) (d : SculptDict) : Heap :=
  { h with dicts := h.dicts.set a d }

/-- Overwrite the list at address a (in-place mutation of a Python list). -/
def setListAt (h : Heap) (a : Nat) (l : List Int) : Heap :=
  { h with lists := h.lists.set a l }

/-- The attribute record of a LocalFileName instance; one field per key of
LocalFileName._defaults, in source order. -/
structure Record where
  fdir : PyVal
  mockgen : PyVal
  ftype : PyVal
  realization : PyVal
  tracer : PyVal
  completeness : PyVal
  region : PyVal
  zrange : PyVal
  z : PyVal
  weighting : PyVal
  nran : PyVal
  los : PyVal
  cellsize : PyVal
  nmesh : PyVal
  boxsize : PyVal
  rpcut : PyVal
  thetacut : PyVal
  directedges : PyVal
  sculpt_attrs : PyVal
  deriving DecidableEq, Repr

/-- Keys of LocalFileName._defaults, in source order. -/
def attrNames : List String :=
  ["fdir", "mockgen", "ftype", "realization", "tracer", "completeness",
   "region", "zrange", "z", "weighting", "nran", "los", "cellsize",
   "nmesh", "boxsize", "rpcut", "thetacut", "directedges", "sculpt_attrs"]

/-- The record right after __init__() with no arguments: the values of
LocalFileName._defaults. -/
def defaultRecord : Record :=
  { fdir := .str ""
    mockgen := .str "second"
    ftype := .str "power"
    realization := .int 0
    tracer := .str "ELG"
    completeness := .bool true
    region := .str "GCcomb"
    zrange := .none
    z := .none
    weighting := .none
    nran := .none
    los := .none
    cellsize := .none
    nmesh := .none
    boxsize := .none
    rpcut := .rat 0
    thetacut := .rat 0
    directedges := .bool true
    sculpt_attrs := .none }

/-- setattr(self, name, value) for the known attribute names. -/
def setattr (r : Record) (name : String) (v : PyVal) : Record :=
  match name with
  | "fdir" => { r with fdir := v }
  | "mockgen" => { r with mockgen := v }
  | "ftype" => { r with ftype := v }
  | "realization" => { r with realization := v }
  | "tracer" => { r with tracer := v }
  | "completeness" => { r with completeness := v }
  | "region" => { r with region := v }
  | "zrange" => { r with zrange := v }
  | "z" => { r with z := v }
  | "weighting" => { r with weighting := v }
  | "nran" => { r with nran := v }
  | "los" => { r with los := v }
  | "cellsize" => { r with cellsize := v }
  | "nmesh" => { r with nmesh := v }
  | "boxsize" => { r with boxsize := v }
  | "rpcut" => { r with rpcut := v }
  | "thetacut" => { r with thetacut := v }
  | "directedges" => { r with directedges := v }
  | "sculpt_attrs" => { r with sculpt_attrs := v }
  | _ => r

/-- getattr(self, name) for the known attribute names. -/
def getattr (r : Record) (name : String) : PyVal :=
  match name with
  | "fdir" => r.fdir
  | "mockgen" => r.mockgen
  | "ftype" => r.ftype
  | "realization" => r.realization
  | "tracer" => r.tracer
  | "completeness" => r.completeness
  | "region" => r.region
  | "zrange" => r.zrange
  | "z" => r.z
  | "weighting" => r.weighting
  | "nran" => r.nran
  | "los" => r.los
  | "cellsize" => r.cellsize
  | "nmesh" => r.nmesh
  | "boxsize" => r.boxsize
  | "rpcut" => r.rpcut
  | "thetacut" => r.thetacut
  | "directedges" => r.directedges
  | "sculpt_attrs" => r.sculpt_attrs
  | _ => .none

/-- copy.copy(value): identity on immutable values, shallow copy of a dict
(the new dict shares the nested ells list reference). -/
def copyCopy (h : Heap) : PyVal → Heap × PyVal
  | .dictRef a =>
    match h.dicts[a]? with
    | some d => ({ h with dicts := h.dicts ++ [d] }, .dictRef h.dicts.length)
    | Option.none => (h, .dictRef a)
  | v => (h, v)

/-- Error message of LocalFileName.update for an unknown keyword. -/
def unknownMsg (name : String) : String :=
  "Unknown argument " ++ name ++ "; supports " ++ String.intercalate ", " attrNames

/-- LocalFileName.update(**kwargs).  Iterates the keyword arguments in
order; a known name is set to a copy.copy of the value, the first unknown
name raises, leaving the names already processed applied (the returned
record is the state of self when the call returns or raises). -/
def update (r : Record) (h : Heap) : List (String × PyVal) → (Record × Heap) × Option String
  | [] => ((r, h), Option.none)
  | (name, value) :: rest =>
    if attrNames.contains name then
      update (setattr r name (copyCopy h value).2) (copyCopy h value).1 rest
    else ((r, h), some (unknownMsg name))

/-- Python truthiness bool(v) for the modelled values. -/
def truthy : PyVal → Bool
  | .str s => if s = "" then false else true
  | .int n => if n = 0 then false else true
  | .rat q => if q = 0 then false else true
  | .bool b => b
  | .pair _ _ => true
  | .none => false
  | .dictRef _ => true

/-- A numeric view of a value (floats, ints and bools support float
formatting and numeric equality in Python). -/
def asNum : PyVal → Option ℚ
  | .rat q => some q
  | .int n => some (n : ℚ)
  | .bool b => some (if b then 1 else 0)
  | _ => Option.none

/-- Python equality (==) restricted to the modelled values: numeric values
compare by value across int/float/bool, other values structurally. -/
def pyEq (a b : PyVal) : Bool :=
  match asNum a, asNum b with
  | some x, some y => decide (x = y)
  | _, _ =>
    match a, b with
    | .str s, .str t => decide (s = t)
    | .pair x y, .pair z w => decide (x = z) && decide (y = w)
    | .none, .none => true
    | .dictRef i, .dictRef j => decide (i = j)
    | _, _ => false

/-- Does pat occur as a contiguous run inside the character list? -/
def subAux (pat : List Char) : List Char → Bool
  | [] => pat.isEmpty
  | a :: as => pat.isPrefixOf (a :: as) || subAux pat as

/-- Substring containment, Python `pat in s`. -/
def strContains (s pat : String) : Bool := subAux pat.toList s.toList

def strStarts (s pat : String) : Bool := pat.toList.isPrefixOf s.toList

def strEnds (s pat : String) : Bool :=
  pat.toList.reverse.isPrefixOf s.toList.reverse

/-- Python slicing s[:n]. -/
def takeStr (s : String) (n : Nat) : String := String.mk (s.toList.take n)

/-- os.path.join for the cases the source exercises. -/
def joinPath (a b : String) : String :=
  if strStarts b "/" then b
  else if a = "" then b
  else if strEnds a "/" then a ++ b
  else a ++ "/" ++ b

def padZeros (s : String) (d : Nat) : String :=
  String.mk (List.replicate (d - s.length) (Char.ofNat 48)) ++ s

/-- Fixed-point float formatting: the format spec .df applied to the exact
rational value of the float, rounding half to even (CPython rounds the
decimal expansion of the double; the repository only formats short decimal
literals, for which the two agree and no tie arises).  Implemented on the
numerator and denominator so the kernel can evaluate it. -/
def fmtFixed (d : Nat) (q : ℚ) : String :=
  let scaled : Int := q.num * (10 : Int) ^ d
  let den : Int := (q.den : Int)
  let f : Int := Int.fdiv scaled den
  let rem : Int := scaled - f * den
  let n : Int :=
    if 2 * rem < den then f
    else if den < 2 * rem then f + 1
    else if f % 2 = 0 then f else f + 1
  let sign := if n < 0 then "-" else ""
  let m : Nat := n.natAbs
  sign ++ toString (m / 10 ^ d) ++ "." ++ padZeros (toString (m % 10 ^ d)) d

/-- str(v) for values whose repr the model covers; floats, tuples and dict
reprs are outside the model (never reached by the claims). -/
def pyStrE : PyVal → Except String String
  | .str s => Except.ok s
  | .int n => Except.ok (toString n)
  | .bool b => Except.ok (if b then "True" else "False")
  | .none => Except.ok "None"
  | _ => Except.error "model boundary: repr of float, tuple or dict"

/-- The local helper opt_attr(name, attr) of get_path. -/
def optAttrE (name : String) (v : PyVal) : Except String String :=
  match v with
  | .none => Except.ok ""
  | v =>
    match pyStrE v with
    | Except.ok s => Except.ok ("_" ++ name ++ s)
    | Except.error e => Except.error e

/-- Error messages (abbreviated CPython texts). -/
def nameErrTracer : String := "NameError: name tracer is not defined"

def nameErrOptions : String := "NameError: name default_options is not defined"

def typeErrMsg : String := "TypeError"

def unboundCompMsg : String :=
  "UnboundLocalError: local variable comp referenced before assignment"

def fmtErrMsg : String := "ValueError: unsupported format operand"

/-- The cut segment of get_path: an rp-cut formatted to one decimal wins
over a theta-cut formatted to two decimals; both falsy gives the empty
segment. -/
def cutSegE (r : Record) : Except String String :=
  if truthy r.rpcut then
    match asNum r.rpcut with
    | some q => Except.ok ("_rpcut" ++ fmtFixed 1 q)
    | Option.none => Except.error fmtErrMsg
  else if truthy r.thetacut then
    match asNum r.thetacut with
    | some q => Except.ok ("_thetacut" ++ fmtFixed 2 q)
    | Option.none => Except.error fmtErrMsg
  else Except.ok ""

/-- The completeness segment of get_path.  A string completeness is used
verbatim; otherwise the branch taken depends on which generation substring
occurs in mockgen, and when none occurs the local variable comp is never
assigned (result ok none). -/
def compSegE (r : Record) : Except String (Option String) :=
  match r.completeness with
  | .str s => Except.ok (some s)
  | c =>
    match r.mockgen with
    | .str g =>
      if strContains g "first" then
        Except.ok (some (if truthy c then "_complete" else ""))
      else if strContains g "second" then
        Except.ok (some (if truthy c then "_complete" else "_ffa"))
      else if strContains g "cubic" then Except.ok (some "")
      else Except.ok Option.none
    | _ => Except.error typeErrMsg

/-- The redshift segment of get_path: a zrange pair beats a z point. -/
def zSegE (r : Record) : Except String String :=
  match r.zrange with
  | .pair a b => Except.ok ("_z" ++ fmtFixed 1 a ++ "-" ++ fmtFixed 1 b)
  | .none =>
    match r.z with
    | .none => Except.ok ""
    | v =>
      match asNum v with
      | some q => Except.ok ("_z" ++ fmtFixed 3 q)
      | Option.none => Except.error fmtErrMsg
  | _ => Except.error typeErrMsg

/-- The direct-edges segment: bool(cut) & self.directedges. -/
def directSegE (cut : String) (r : Record) : Except String String :=
  match r.directedges with
  | .bool b =>
    Except.ok (if cut ≠ "" && b then "_directedges_max5000" else "")
  | .int n =>
    Except.ok (if cut ≠ "" && n % 2 = 1 then "_directedges_max5000" else "")
  | _ => Except.error typeErrMsg

/-- The sculpt segment, read through the heap. -/
def sculptSegE (h : Heap) (r : Record) : Except String String :=
  match r.sculpt_attrs with
  | .none => Except.ok ""
  | .dictRef a =>
    match h.dicts[a]? with
    | some d =>
      match h.lists[d.ells]? with
      | some l =>
        Except.ok ("_ells" ++ String.join (l.map (fun i => toString i)) ++
          "_kobsmax" ++ fmtFixed 1 d.kobsmax ++ "_ktmax" ++ fmtFixed 1 d.ktmax ++
          "_capsig" ++ toString d.capsig ++ "_difflfac" ++ toString d.difflfac ++
          "_" ++ d.covtype ++ "cov")
      | Option.none => Except.error "model boundary: dangling list reference"
    | Option.none => Except.error "model boundary: dangling dict reference"
  | _ => Except.error typeErrMsg

/-- Lines 79-84 of get_path: when fdir is the empty string it is replaced
by the generation directory plus xi (correlation outputs) or pk. -/
def deriveFdirE (r : Record) : Except String Record :=
  if pyEq r.fdir (.str "") then
    match r.mockgen, r.ftype with
    | .str mg, .str ft =>
      Except.ok { r with fdir := .str (joinPath
        ("/global/cfs/cdirs/desi/users/mpinon/" ++ mg ++ "GenMocksY1")
        (if strContains ft "corr" then "xi" else "pk")) }
    | _, _ => Except.error typeErrMsg
  else Except.ok r

/-- The file name built at line 113 of get_path.  Segments are evaluated
in the order the source raises: the cut format first, then the branches on
completeness, redshift, direct edges and sculpt attributes, then the
format arguments left to right; an unassigned comp raises there. -/
def fnameE (h : Heap) (r : Record) : Except String String := do
  let cut ← cutSegE r
  let compOpt ← compSegE r
  let z ← zSegE r
  let direct ← directSegE cut r
  let sculpt ← sculptSegE h r
  let ftypeS ← pyStrE r.ftype
  let mockS ← optAttrE "mock" r.realization
  let tracerS ← pyStrE r.tracer
  let comp ← (match compOpt with
    | some c => Except.ok c
    | Option.none => Except.error unboundCompMsg)
  let regionS ← optAttrE "" r.region
  let weightingS ← (match r.weighting with
    | .none => Except.ok ""
    | w => pyStrE w)
  let nranS ← optAttrE "nran" r.nran
  let losS ← optAttrE "los" r.los
  let cellS ← optAttrE "cellsize" r.cellsize
  let nmeshS ← optAttrE "nmesh" r.nmesh
  let boxS ← optAttrE "boxsize" r.boxsize
  Except.ok (ftypeS ++ mockS ++ "_" ++ tracerS ++ comp ++ regionS ++ z ++
    weightingS ++ nranS ++ losS ++ cellS ++ nmeshS ++ boxS ++ cut ++ direct ++
    sculpt ++ ".npy")

/-- LocalFileName.get_path(**kwargs): update, derive fdir when empty,
build the file name, join.  Returns the mutated record and heap with the
path. -/
def get_path (r0 : Record) (h0 : Heap) (kwargs : List (String × PyVal)) :
    Except String (Record × Heap × String) :=
  match update r0 h0 kwargs with
  | (_, some e) => Except.error e
  | ((r1, h1), Option.none) =>
    match deriveFdirE r1 with
    | Except.error e => Except.error e
    | Except.ok r2 =>
      match fnameE h1 r2 with
      | Except.error e => Except.error e
      | Except.ok fname =>
        match r2.fdir with
        | .str d => Except.ok (r2, h1, joinPath d fname)
        | _ => Except.error typeErrMsg

/-- Run self.update(**opts) and fail (never happens: opts keys known). -/
def finishUpdate (r : Record) (h : Heap) (opts : List (String × PyVal)) :
    Except String (Record × Heap) :=
  match update r h opts with
  | ((r2, h2), Option.none) => Except.ok (r2, h2)
  | (_, some e) => Except.error e

def firstGenRoot : String := "/global/cfs/cdirs/desi/users/mpinon/firstGenMocksY1"

def secondGenRoot : String := "/global/cfs/cdirs/desi/users/mpinon/secondGenMocksY1"

def cubicRoot : String := "/global/cfs/cdirs/desi/users/mpinon/cubicSecondGenMocks"

/-- LocalFileName.set_default_config(**kwargs).  After the initial update,
one block runs per mockgen value; an ELG-prefixed tracer selects a preset
merged through update, any other tracer reaches a raise statement whose
format argument is the unbound bare name tracer (a NameError, not the
intended ValueError); mockgen outside the three generations, or a cubic z
outside none, 1.1 and 0.95, leaves default_options unbound. -/
def set_default_config (r0 : Record) (h0 : Heap)
    (kwargs : List (String × PyVal)) : Except String (Record × Heap) :=
  match update r0 h0 kwargs with
  | (_, some e) => Except.error e
  | ((r, h), Option.none) =>
    if pyEq r.mockgen (.str "first") then
      match r.tracer with
      | .str t =>
        if takeStr t 3 = "ELG" then
          match r.ftype with
          | .str ft =>
            let base : List (String × PyVal) :=
              if strContains ft "corr" then
                [("tracer", .str "ELG"), ("zrange", .pair (mkRat 8 10) (mkRat 16 10))]
              else
                [("tracer", .str "ELG"), ("zrange", .pair (mkRat 8 10) (mkRat 16 10)),
                 ("directedges", .bool false)]
            let subdir := if strContains ft "corr" then "xi" else "pk"
            finishUpdate r h (base ++ [("fdir", .str (joinPath firstGenRoot subdir))])
          | _ => Except.error typeErrMsg
        else Except.error nameErrTracer
      | _ => Except.error typeErrMsg
    else if pyEq r.mockgen (.str "second") then
      match r.tracer with
      | .str t =>
        if takeStr t 3 = "ELG" then
          match r.ftype with
          | .str ft =>
            if strContains ft "corr" then
              finishUpdate r h
                [("tracer", .str "ELG_LOP"), ("zrange", .pair (mkRat 8 10) (mkRat 16 10)),
                 ("fdir", .str (joinPath secondGenRoot "xi"))]
            else
              let opts : List (String × PyVal) :=
                [("tracer", .str "ELG_LOP"), ("zrange", .pair (mkRat 8 10) (mkRat 16 10)),
                 ("cellsize", .int 4), ("directedges", .bool true)]
              if strContains ft "sculpt" then
                -- the dict literal allocates a fresh ells list and dict
                let h2 : Heap := { h with lists := h.lists ++ [[0, 2, 4]] }
                let h3 : Heap := { h2 with dicts := h2.dicts ++
                  [{ ells := h.lists.length, kobsmax := mkRat 4 10, ktmax := mkRat 5 10,
                     capsig := 5, difflfac := 10, covtype := "analytic" }] }
                finishUpdate r h3 (opts ++
                  [("sculpt_attrs", .dictRef h.dicts.length),
                   ("fdir", .str (joinPath secondGenRoot "pk"))])
              else
                finishUpdate r h (opts ++
                  [("fdir", .str (joinPath secondGenRoot "pk"))])
          | _ => Except.error typeErrMsg
        else Except.error nameErrTracer
      | _ => Except.error typeErrMsg
    else if pyEq r.mockgen (.str "cubic") then
      match r.tracer with
      | .str t =>
        if takeStr t 3 = "ELG" then
          let o1 : Option (List (String × PyVal)) :=
            if pyEq r.z (.rat (mkRat 11 10)) || decide (r.z = .none) then
              some [("tracer", .str "ELG"), ("region", .none),
                    ("zrange", .none), ("z", .rat (mkRat 11 10)),
                    ("nmesh", .int 2048), ("boxsize", .int 2000)]
            else Option.none
          let o2 : Option (List (String × PyVal)) :=
            if pyEq r.z (.rat (mkRat 95 100)) then
              some [("tracer", .str "ELG"), ("region", .none),
                    ("zrange", .none), ("z", r.z),
                    ("cellsize", .int 6), ("boxsize", .int 2000)]
            else o1
          match o2 with
          | some opts =>
            finishUpdate r h (opts ++ [("fdir", .str (joinPath cubicRoot "pk"))])
          | Option.none => Except.error nameErrOptions
        else Except.error nameErrTracer
      | _ => Except.error typeErrMsg
    else Except.error nameErrOptions

/-! Shape predicates used to state which records are well typed in the
sense of the class docstring (each attribute holds a value of its
documented Python type). -/

def isRef : PyVal → Bool
  | .dictRef _ => true
  | _ => false

def isStr : PyVal → Bool
  | .str _ => true
  | _ => false

def isNum : PyVal → Bool
  | .rat _ => true
  | .int _ => true
  | .bool _ => true
  | _ => false

def isIntOrNone : PyVal → Bool
  | .int _ => true
  | .none => true
  | _ => false

def isStrOrNone : PyVal → Bool
  | .str _ => true
  | .none => true
  | _ => false

def isPairOrNone : PyVal → Bool
  | .pair _ _ => true
  | .none => true
  | _ => false

def isNumOrNone : PyVal → Bool
  | .none => true
  | v => isNum v

def isBool : PyVal → Bool
  | .bool _ => true
  | _ => false

def sculptOk (h : Heap) : PyVal → Bool
  | .none => true
  | .dictRef a =>
    match h.dicts[a]? with
    | some d => (h.lists[d.ells]?).isSome
    | Option.none => false
  | _ => false

/-- Every attribute holds a value of its documented type (completeness is
left free: the claims constrain it separately). -/
def wellTyped (h : Heap) (r : Record) : Prop :=
  isStr r.fdir = true ∧ isStr r.mockgen = true ∧ isStr r.ftype = true ∧
  isIntOrNone r.realization = true ∧ isStr r.tracer = true ∧
  isStrOrNone r.region = true ∧ isPairOrNone r.zrange = true ∧
  isNumOrNone r.z = true ∧ isStrOrNone r.weighting = true ∧
  isIntOrNone r.nran = true ∧ isStrOrNone r.los = true ∧
  isIntOrNone r.cellsize = true ∧ isIntOrNone r.nmesh = true ∧
  isIntOrNone r.boxsize = true ∧ isNum r.rpcut = true ∧
  isNum r.thetacut = true ∧ isBool r.directedges = true ∧
  sculptOk h r.sculpt_attrs = true

instance (h : Heap) (r : Record) : Decidable (wellTyped h r) := by
  unfold wellTyped
  infer_instance

/-- Read back the ells list stored behind the record's sculpt_attrs dict:
what the record renders into the file name. -/
def recordEllsList (h : Heap) (r : Record) : Option (List Int) :=
  match r.sculpt_attrs with
  | .dictRef a => (h.dicts[a]?).bind (fun d => h.lists[d.ells]?)
  | _ => Option.none

/-- A caller-owned sculpt dict whose ells entry references list 0. -/
def dC3 : SculptDict :=
  { ells := 0, kobsmax := mkRat 4 10, ktmax := mkRat 5 10, capsig := 5,
    difflfac := 10, covtype := "analytic" }

/-- A caller-owned heap for the aliasing scenario: one sculpt dict whose
ells entry references the one list. -/
def c3Heap : Heap :=
  { dicts := [{ ells := 0, kobsmax := mkRat 4 10, ktmax := mkRat 5 10, capsig := 5,
                difflfac := 10, covtype := "analytic" }]
    lists := [[0, 2, 4]] }

/-- A multi-key mapping (distinct keys, as Python keyword arguments are)
mixing plain values with a sculpt_attrs dict, for the round-trip
witness. -/
def kwC3 : List (String × PyVal) :=
  [("realization", .int 7), ("sculpt_attrs", .dictRef 0),
   ("region", .str "NGC")]

/-- The record of the worked example: generation second, tracer ELG, file
type power, realization 3, region NGC, zrange (0.8, 1.6), cellsize 4,
nmesh absent, completeness True (the remaining attributes default). -/
def r5 : Record :=
  { defaultRecord with
    realization := .int 3
    region := .str "NGC"
    zrange := .pair (mkRat 8 10) (mkRat 16 10)
    cellsize := .int 4 }

/-- The record of the worked example after set_default_config. -/
def r5after : Record :=
  { r5 with
    tracer := .str "ELG_LOP"
    zrange := .pair (mkRat 8 10) (mkRat 16 10)
    cellsize := .int 4
    directedges := .bool true
    fdir := .str "/global/cfs/cdirs/desi/users/mpinon/secondGenMocksY1/pk" }

/-- A record with both cuts nonzero, for the cut-precedence witness. -/
def rBothCuts : Record :=
  { defaultRecord with rpcut := .rat (mkRat 3 2), thetacut := .rat 2 }

/-- A record with both a redshift range and a redshift point set, for the
redshift-precedence witness. -/
def rBothZ : Record :=
  { defaultRecord with zrange := .pair (mkRat 8 10) (mkRat 16 10), z := .rat (mkRat 11 10) }

/-- A record whose generation matches none of the three substrings, for
the unbound-comp witness. -/
def rOddGen : Record := { defaultRecord with mockgen := .str "third" }

/-- Cubic records for the preset witnesses: one with an unsupported
redshift point, one with the point absent. -/
def rCubicBadZ : Record :=
  { defaultRecord with mockgen := .str "cubic", z := .rat 2 }

def rCubicNoZ : Record := { defaultRecord with mockgen := .str "cubic" }

/-- The record produced by get_path on the default record (fdir filled). -/
def rDefaultAfter : Record :=
  { defaultRecord with
    fdir := .str "/global/cfs/cdirs/desi/users/mpinon/secondGenMocksY1/pk" }

def defaultPath : String :=
  "/global/cfs/cdirs/desi/users/mpinon/secondGenMocksY1/pk/power_mock0_ELG_complete_GCcomb.npy"

/-! ## Theorems -/

/-- C1.  The claim expects an UnsupportedTracer error naming the offending
tracer for a non-ELG tracer under each generation.  The code instead
raises NameError: the raise statement formats the bare name tracer, which
is unbound in set_default_config (the attribute is self.tracer), so the
ValueError naming the tracer is never constructed.  This theorem evaluates
the model at tracer LRG under each of the three generations: the
propagated error is the NameError, and it does not mention LRG. -/
theorem c1_unknown_tracer_namerror :
    set_default_config
      { defaultRecord with mockgen := .str "first", tracer := .str "LRG" }
      emptyHeap [] = Except.error nameErrTracer ∧
    set_default_config
      { defaultRecord with mockgen := .str "second", tracer := .str "LRG" }
      emptyHeap [] = Except.error nameErrTracer ∧
    set_default_config
      { defaultRecord with mockgen := .str "cubic", tracer := .str "LRG" }
      emptyHeap [] = Except.error nameErrTracer ∧
    strContains nameErrTracer "LRG" = false := by
  refine ⟨rfl, rfl, rfl, by decide⟩

/-- C2 counterexample.  update applies keyword arguments one at a time:
updating the default record with realization 5 followed by the unknown key
bad raises, yet leaves realization set to 5 (it was 0 before the call), so
the failed call is not atomic. -/
theorem c2_partial_update_counterexample :
    ((update defaultRecord emptyHeap
        [("realization", .int 5), ("bad", .int 1)]).2).isSome = true ∧
    (update defaultRecord emptyHeap
        [("realization", .int 5), ("bad", .int 1)]).1.1.realization = .int 5 ∧
    defaultRecord.realization = .int 0 := by
  refine ⟨rfl, rfl, rfl⟩

/-- C3 counterexample.  update stores copy.copy of each value, a shallow
copy: the stored sculpt_attrs dict is a new dict object, but its ells
entry still references the caller-owned list.  Mutating that list in place
after the call (setListAt at address 0) changes what the record reads
back, refuting deep-copy independence. -/
theorem c3_shallow_copy_counterexample :
    (update defaultRecord c3Heap [("sculpt_attrs", .dictRef 0)]).2 =
      Option.none ∧
    recordEllsList (update defaultRecord c3Heap [("sculpt_attrs", .dictRef 0)]).1.2
      (update defaultRecord c3Heap [("sculpt_attrs", .dictRef 0)]).1.1 =
      some [0, 2, 4] ∧
    recordEllsList
      (setListAt (update defaultRecord c3Heap [("sculpt_attrs", .dictRef 0)]).1.2 0 [9])
      (update defaultRecord c3Heap [("sculpt_attrs", .dictRef 0)]).1.1 =
      some [9] := by
  refine ⟨rfl, rfl, rfl⟩

/-- C4 counterexample.  get_path is not a pure read: on the default record
(whose fdir is the empty string) it derives and stores fdir, so an
attribute changes. -/
theorem c4_mutates_fdir_counterexample :
    defaultRecord.fdir = .str "" ∧
    get_path defaultRecord emptyHeap [] =
      Except.ok (rDefaultAfter, emptyHeap, defaultPath) ∧
    rDefaultAfter.fdir ≠ defaultRecord.fdir := by
  refine ⟨rfl, rfl, by decide⟩

/-- C5.  The worked example: on the record with generation second, tracer
ELG, file type power, realization 3, region NGC, zrange (0.8, 1.6),
cellsize 4, nmesh absent, completeness True, set_default_config rewrites
tracer to ELG_LOP and get_path renders the directory joined with exactly
power_mock3_ELG_LOP_complete_NGC_z0.8-1.6_cellsize4.npy. -/
theorem c5_second_gen_example :
    set_default_config r5 emptyHeap [] = Except.ok (r5after, emptyHeap) ∧
    r5after.tracer = .str "ELG_LOP" ∧
    get_path r5after emptyHeap [] = Except.ok (r5after, emptyHeap,
      "/global/cfs/cdirs/desi/users/mpinon/secondGenMocksY1/pk/" ++
      "power_mock3_ELG_LOP_complete_NGC_z0.8-1.6_cellsize4.npy") := by
  refine ⟨rfl, rfl, rfl⟩

/-- Helper: an update whose keys are all known attribute names raises
nothing. -/
theorem update_keys_ok (kw : List (String × PyVal))
    (hkw : kw.all (fun p => attrNames.contains p.1) = true) :
    ∀ (r : Record) (h : Heap), (update r h kw).2 = Option.none := by
  induction kw with
  | nil => intro r h; rfl
  | cons p rest ih =>
    intro r h
    obtain ⟨n, v⟩ := p
    simp only [List.all_cons, Bool.and_eq_true] at hkw
    simp only [update, hkw.1, if_true]
    exact ih hkw.2 _ _

/-- Helper: copy.copy leaves non-reference values and the heap alone. -/
theorem copyCopy_nonref (h : Heap) (v : PyVal) (hv : isRef v = false) :
    copyCopy h v = (h, v) := by
  cases v <;> first | rfl | simp [isRef] at hv

/-- Helper: reading back an attribute just set. -/
theorem getattr_setattr (r : Record) (n : String) (v : PyVal)
    (hn : attrNames.contains n = true) : getattr (setattr r n v) n = v := by
  have hmem : n ∈ attrNames := by
    simpa using hn
  fin_cases hmem <;> rfl

/-- Helper: setting the sculpt_attrs attribute. -/
theorem setattr_sculpt_attrs (r : Record) (v : PyVal) :
    setattr r "sculpt_attrs" v = { r with sculpt_attrs := v } := rfl

/-- C2 amended.  update applies keyword arguments left to right: the keys
before the first unknown key are applied, the unknown key raises the
unknown-argument error naming it, and neither it nor any later key is
applied.  The record and heap after the failed call are exactly those
after updating with the prefix of known keys alone. -/
theorem c2_amended_first_unknown_wins (bad : String) (v : PyVal)
    (pre rest : List (String × PyVal)) (r : Record) (h : Heap)
    (hpre : ∀ p ∈ pre, attrNames.contains p.1 = true)
    (hbad : attrNames.contains bad = false) :
    update r h (pre ++ (bad, v) :: rest) =
      ((update r h pre).1, some (unknownMsg bad)) := by
  induction pre generalizing r h with
  | nil =>
    simp only [List.nil_append, update, hbad]
    simp [update]
  | cons p ps ih =>
    obtain ⟨n, w⟩ := p
    have hp : attrNames.contains n = true := by
      simpa using hpre (n, w) (List.mem_cons_self _ _)
    simp only [List.cons_append, update, hp, if_true]
    exact ih _ _ (fun q hq => hpre q (List.mem_cons_of_mem _ hq))

/-- C2 amended, witness. -/
theorem c2_amended_witness :
    update defaultRecord emptyHeap
        [("realization", .int 5), ("bad", .int 1), ("region", .str "NGC")] =
      ((update defaultRecord emptyHeap [("realization", .int 5)]).1,
        some (unknownMsg "bad")) := by
  exact c2_amended_first_unknown_wins "bad" (.int 1)
    [("realization", .int 5)] [("region", .str "NGC")]
    defaultRecord emptyHeap (by decide) (by decide)

/-- Helper: the field read by getattr is untouched when setattr writes a
different known attribute. -/
theorem getattr_setattr_ne (r : Record) (m n : String) (v : PyVal)
    (hm : m ∈ attrNames) (hn : n ∈ attrNames) (hne : n ≠ m) :
    getattr (setattr r m v) n = getattr r n := by
  fin_cases hm <;> fin_cases hn <;> first | exact absurd rfl hne | rfl

/-- Helper: copy.copy only ever appends to the dict heap and leaves the
list heap alone. -/
theorem copyCopy_extends (h : Heap) (w : PyVal) :
    ∃ e, (copyCopy h w).1.dicts = h.dicts ++ e ∧
      (copyCopy h w).1.lists = h.lists := by
  cases w
  case dictRef a =>
    cases hl : h.dicts[a]? with
    | none => exact ⟨[], by simp [copyCopy, hl], by simp [copyCopy, hl]⟩
    | some d => exact ⟨[d], by simp [copyCopy, hl], by simp [copyCopy, hl]⟩
  all_goals exact ⟨[], by simp [copyCopy], rfl⟩

/-- Helper: update only ever appends to the dict heap, so existing dict
objects keep their contents. -/
theorem update_heap_extends (kw : List (String × PyVal)) :
    ∀ (r : Record) (h : Heap),
      (∃ e, (update r h kw).1.2.dicts = h.dicts ++ e) ∧
      (update r h kw).1.2.lists = h.lists := by
  induction kw with
  | nil => intro r h; exact ⟨⟨[], by simp [update]⟩, rfl⟩
  | cons p rest ih =>
    intro r h
    obtain ⟨m, w⟩ := p
    by_cases hm : attrNames.contains m = true
    · simp only [update, hm, if_true]
      obtain ⟨e0, he0, hl0⟩ := copyCopy_extends h w
      obtain ⟨⟨e1, he1⟩, hl1⟩ :=
        ih (setattr r m (copyCopy h w).2) (copyCopy h w).1
      refine ⟨⟨e0 ++ e1, ?_⟩, ?_⟩
      · rw [he1, he0, List.append_assoc]
      · rw [hl1, hl0]
    · have hm2 : attrNames.contains m = false := by simpa using hm
      simp only [update, hm2]
      refine ⟨⟨[], ?_⟩, ?_⟩ <;> simp

/-- Helper: an update mentioning only immutable values leaves the heap
unchanged. -/
theorem update_heap_id (kw : List (String × PyVal)) :
    ∀ (r : Record) (h : Heap), (∀ p ∈ kw, isRef p.2 = false) →
      (update r h kw).1.2 = h := by
  induction kw with
  | nil => intro r h _; rfl
  | cons p rest ih =>
    intro r h hall
    obtain ⟨m, w⟩ := p
    have hw : isRef w = false := hall (m, w) (List.mem_cons_self _ _)
    by_cases hm : attrNames.contains m = true
    · simp only [update, hm, if_true]
      rw [copyCopy_nonref h w hw]
      exact ih _ _ (fun q hq => hall q (List.mem_cons_of_mem _ hq))
    · have hm2 : attrNames.contains m = false := by simpa using hm
      simp only [update, hm2]
      simp

/-- Helper: an update whose keys avoid a known attribute does not touch
it. -/
theorem getattr_update_not_mem (kw : List (String × PyVal)) :
    ∀ (r : Record) (h : Heap) (n : String), n ∈ attrNames →
      n ∉ kw.map Prod.fst →
      getattr (update r h kw).1.1 n = getattr r n := by
  induction kw with
  | nil => intro r h n _ _; rfl
  | cons p rest ih =>
    intro r h n hn hnot
    obtain ⟨m, w⟩ := p
    simp only [List.map_cons, List.mem_cons, not_or] at hnot
    obtain ⟨hnm, hnrest⟩ := hnot
    by_cases hm : attrNames.contains m = true
    · simp only [update, hm, if_true]
      rw [ih _ _ n hn hnrest]
      exact getattr_setattr_ne r m n _ (by simpa using hm) hn hnm
    · have hm2 : attrNames.contains m = false := by simpa using hm
      simp only [update, hm2]
      simp

/-- Helper: round-trip for an immutable value in an arbitrary mapping
with known, distinct keys. -/
theorem getattr_update_mem (kw : List (String × PyVal)) :
    ∀ (r : Record) (h : Heap),
      kw.all (fun p => attrNames.contains p.1) = true →
      (kw.map Prod.fst).Nodup →
      ∀ (n : String) (v : PyVal), (n, v) ∈ kw → isRef v = false →
        getattr (update r h kw).1.1 n = v := by
  induction kw with
  | nil => intro r h _ _ n v hmem _; cases hmem
  | cons p rest ih =>
    intro r h hkeys hnodup n v hmem hv
    obtain ⟨m, w⟩ := p
    simp only [List.all_cons, Bool.and_eq_true] at hkeys
    simp only [List.map_cons, List.nodup_cons] at hnodup
    rcases List.mem_cons.mp hmem with heq | hrest
    · cases heq
      simp only [update, hkeys.1, if_true]
      rw [copyCopy_nonref h v hv]
      rw [getattr_update_not_mem rest _ _ n (by simpa using hkeys.1)
        hnodup.1]
      exact getattr_setattr r n v hkeys.1
    · simp only [update, hkeys.1, if_true]
      exact ih _ _ hkeys.2 hnodup.2 n v hrest hv

/-- Helper: round-trip for a sculpt dict in an arbitrary mapping with
known, distinct keys: the stored value is a freshly allocated dict whose
contents (the ells list address included) equal the caller's dict. -/
theorem getattr_update_mem_ref (kw : List (String × PyVal)) :
    ∀ (r : Record) (h : Heap),
      kw.all (fun p => attrNames.contains p.1) = true →
      (kw.map Prod.fst).Nodup →
      ∀ (n : String) (a : Nat) (d : SculptDict),
        (n, PyVal.dictRef a) ∈ kw → h.dicts[a]? = some d →
        ∃ a2, h.dicts.length ≤ a2 ∧
          getattr (update r h kw).1.1 n = PyVal.dictRef a2 ∧
          (update r h kw).1.2.dicts[a2]? = some d := by
  induction kw with
  | nil => intro r h _ _ n a d hmem _; cases hmem
  | cons p rest ih =>
    intro r h hkeys hnodup n a d hmem hd
    obtain ⟨m, w⟩ := p
    simp only [List.all_cons, Bool.and_eq_true] at hkeys
    simp only [List.map_cons, List.nodup_cons] at hnodup
    rcases List.mem_cons.mp hmem with heq | hrest
    · cases heq
      have hcc : copyCopy h (PyVal.dictRef a) =
          ({ h with dicts := h.dicts ++ [d] }, PyVal.dictRef h.dicts.length) := by
        simp [copyCopy, hd]
      simp only [update, hkeys.1, if_true, hcc]
      refine ⟨h.dicts.length, le_refl _, ?_, ?_⟩
      · rw [getattr_update_not_mem rest _ _ n (by simpa using hkeys.1)
          hnodup.1]
        exact getattr_setattr r n _ hkeys.1
      · obtain ⟨⟨e, he⟩, -⟩ := update_heap_extends rest
          (setattr r n (PyVal.dictRef h.dicts.length))
          { h with dicts := h.dicts ++ [d] }
        rw [he, List.getElem?_append]
        have hlt : h.dicts.length < (h.dicts ++ [d]).length := by simp
        rw [if_pos hlt]
        exact List.getElem?_concat_length _ _
    · obtain ⟨e0, he0, -⟩ := copyCopy_extends h w
      have ha : a < h.dicts.length := (List.getElem?_eq_some.mp hd).1
      have hd2 : (copyCopy h w).1.dicts[a]? = some d := by
        rw [he0, List.getElem?_append, if_pos ha]
        exact hd
      simp only [update, hkeys.1, if_true]
      obtain ⟨a2, hle, hget, hstore⟩ :=
        ih _ _ hkeys.2 hnodup.2 n a d hrest hd2
      refine ⟨a2, ?_, hget, hstore⟩
      have hgrow : h.dicts.length ≤ (copyCopy h w).1.dicts.length := by
        rw [he0]
        simp
      omega

/-- C3 amended.  For any mapping whose keys all lie in the closed
attribute set (distinct, as Python keyword arguments are), update
succeeds and round-trips: reading each updated attribute back yields
exactly the supplied value.  Stored values are shallow (copy.copy)
top-level copies: a mapping of immutable values leaves the heap alone; a
sculpt_attrs dict is stored as a freshly allocated dict whose contents
equal the caller's dict, so overwriting the caller's dict afterwards
does not affect the record — but the copy shares the nested ells list
address (field ells of d), which is why in-place mutation of that nested
list does change the record (the counterexample above). -/
theorem c3_amended_shallow_copy (kw : List (String × PyVal)) (r : Record)
    (h : Heap)
    (hkeys : kw.all (fun p => attrNames.contains p.1) = true)
    (hnodup : (kw.map Prod.fst).Nodup) :
    (update r h kw).2 = Option.none ∧
    (∀ n v, (n, v) ∈ kw → isRef v = false →
      getattr (update r h kw).1.1 n = v) ∧
    ((∀ p ∈ kw, isRef p.2 = false) → (update r h kw).1.2 = h) ∧
    (∀ n a d, (n, PyVal.dictRef a) ∈ kw → h.dicts[a]? = some d →
      ∃ a2, h.dicts.length ≤ a2 ∧
        getattr (update r h kw).1.1 n = PyVal.dictRef a2 ∧
        (update r h kw).1.2.dicts[a2]? = some d ∧
        ∀ d2, (setDict (update r h kw).1.2 a d2).dicts[a2]? = some d) := by
  refine ⟨update_keys_ok kw hkeys r h,
    fun n v hmem hv => getattr_update_mem kw r h hkeys hnodup n v hmem hv,
    fun hall => update_heap_id kw r h hall, ?_⟩
  intro n a d hmem hd
  obtain ⟨a2, hle, hget, hstore⟩ :=
    getattr_update_mem_ref kw r h hkeys hnodup n a d hmem hd
  have ha : a < h.dicts.length := (List.getElem?_eq_some.mp hd).1
  have hne : a ≠ a2 := by omega
  refine ⟨a2, hle, hget, hstore, fun d2 => ?_⟩
  simp only [setDict]
  rw [List.getElem?_set_ne hne]
  exact hstore

/-- C3 amended, witness: a three-key mapping mixing plain values with a
sculpt_attrs dict round-trips, and the stored dict is a fresh copy of
the caller's. -/
theorem c3_amended_witness :
    (update defaultRecord c3Heap kwC3).2 = Option.none ∧
    getattr (update defaultRecord c3Heap kwC3).1.1 "realization" =
      PyVal.int 7 ∧
    getattr (update defaultRecord c3Heap kwC3).1.1 "region" =
      PyVal.str "NGC" ∧
    (∃ a2, c3Heap.dicts.length ≤ a2 ∧
      getattr (update defaultRecord c3Heap kwC3).1.1 "sculpt_attrs" =
        PyVal.dictRef a2 ∧
      (update defaultRecord c3Heap kwC3).1.2.dicts[a2]? = some dC3 ∧
      ∀ d2, (setDict (update defaultRecord c3Heap kwC3).1.2 0 d2).dicts[a2]? =
        some dC3) := by
  obtain ⟨h1, h2, h3, h4⟩ := c3_amended_shallow_copy kwC3 defaultRecord
    c3Heap (by decide) (by decide)
  exact ⟨h1, h2 "realization" (.int 7) (by decide) (by decide),
    h2 "region" (.str "NGC") (by decide) (by decide),
    h4 "sculpt_attrs" 0 dC3 (by decide) (by decide)⟩

/-- Helper: anatomy of a successful get_path call. -/
theorem get_path_ok_shape (r0 : Record) (h0 : Heap)
    (kw : List (String × PyVal)) (r1 : Record) (h1 : Heap) (p : String)
    (hok : get_path r0 h0 kw = Except.ok (r1, h1, p)) :
    ∃ rm, update r0 h0 kw = ((rm, h1), Option.none) ∧
      deriveFdirE rm = Except.ok r1 ∧
      ∃ d fname, r1.fdir = PyVal.str d ∧ fnameE h1 r1 = Except.ok fname ∧
        p = joinPath d fname := by
  unfold get_path at hok
  rcases hu : update r0 h0 kw with ⟨⟨rm, hm⟩, e⟩
  rw [hu] at hok
  cases e with
  | some e => simp at hok
  | none =>
    dsimp only at hok
    cases hd : deriveFdirE rm with
    | error e => rw [hd] at hok; simp at hok
    | ok r2 =>
      rw [hd] at hok
      dsimp only at hok
      cases hf : fnameE hm r2 with
      | error e => rw [hf] at hok; simp at hok
      | ok fname =>
        rw [hf] at hok
        dsimp only at hok
        cases hfd : r2.fdir <;> rw [hfd] at hok <;> simp at hok
        obtain ⟨hr, hh, hp⟩ := hok
        subst hr; subst hh
        exact ⟨rm, rfl, hd, _, fname, hfd, hf, hp.symm⟩

/-- C4 amended.  get_path is not a pure read of the record: besides the
string it returns, it stores the derived base directory into fdir when
fdir is the empty string.  Every attribute other than fdir is unchanged,
and when fdir is nonempty the whole record (and heap) is unchanged, so
fdir derivation is the one extra state transition besides update and
set_default_config. -/
theorem c4_amended_fdir_only (r0 : Record) (h0 : Heap) (r1 : Record)
    (h1 : Heap) (p : String)
    (hok : get_path r0 h0 [] = Except.ok (r1, h1, p)) :
    h1 = h0 ∧ r1 = { r0 with fdir := r1.fdir } ∧
    (pyEq r0.fdir (.str "") = false → r1 = r0) := by
  obtain ⟨rm, hu, hd, -⟩ := get_path_ok_shape r0 h0 [] r1 h1 p hok
  have hu0 : update r0 h0 [] = ((r0, h0), Option.none) := rfl
  rw [hu0] at hu
  obtain ⟨hr0, hh0⟩ : r0 = rm ∧ h0 = h1 := by
    constructor <;> [exact congrArg (fun x => x.1.1) hu;
      exact congrArg (fun x => x.1.2) hu]
  subst hr0; subst hh0
  unfold deriveFdirE at hd
  by_cases hfd : pyEq r0.fdir (.str "") = true
  · rw [if_pos hfd] at hd
    refine ⟨rfl, ?_, ?_⟩
    · cases hmg : r0.mockgen <;> rw [hmg] at hd <;>
        cases hft : r0.ftype <;> rw [hft] at hd <;> simp at hd
      rw [← hd]
    · intro hcontra
      rw [hfd] at hcontra
      cases hcontra
  · rw [if_neg hfd] at hd
    have hr1 : r0 = r1 := by simpa using hd
    subst hr1
    exact ⟨rfl, rfl, fun _ => rfl⟩

/-- C4 amended, witness: a record with a nonempty fdir passes through
get_path unchanged. -/
theorem c4_amended_witness :
    emptyHeap = emptyHeap ∧
    rDefaultAfter = { rDefaultAfter with fdir := rDefaultAfter.fdir } ∧
    (pyEq rDefaultAfter.fdir (.str "") = false →
      rDefaultAfter = rDefaultAfter) := by
  exact c4_amended_fdir_only rDefaultAfter emptyHeap rDefaultAfter
    emptyHeap defaultPath rfl

/-- C6.  The cut segment of get_path: when the radial cut is nonzero the
segment is _rpcut with the value at one decimal, and the radial cut wins
regardless of the angular cut; else when the angular cut is nonzero it is
_thetacut with the value at two decimals; else it is empty.  The three
cases are exhaustive and mutually exclusive, so at most one cut segment
ever appears in the rendered name. -/
theorem c6_cut_segment (r : Record) (a b : ℚ)
    (hra : r.rpcut = PyVal.rat a) (hrb : r.thetacut = PyVal.rat b) :
    (a ≠ 0 → cutSegE r = Except.ok ("_rpcut" ++ fmtFixed 1 a)) ∧
    (a = 0 → b ≠ 0 → cutSegE r = Except.ok ("_thetacut" ++ fmtFixed 2 b)) ∧
    (a = 0 → b = 0 → cutSegE r = Except.ok "") := by
  refine ⟨?_, ?_, ?_⟩ <;> intros <;> simp_all [cutSegE, truthy, asNum]

/-- C6, witness: with rpcut 1.5 and thetacut 2 both nonzero, the radial
cut wins. -/
theorem c6_cut_segment_witness :
    cutSegE rBothCuts = Except.ok ("_rpcut" ++ fmtFixed 1 (mkRat 3 2)) := by
  exact (c6_cut_segment rBothCuts (mkRat 3 2) 2 rfl rfl).1 (by decide)

/-- C7.  The redshift segment of get_path: a zrange pair renders as
_z{lo:.1f}-{hi:.1f} and takes precedence over the z point; with no range,
a z point renders as _z{val:.3f}; with neither the segment is empty. -/
theorem c7_redshift_segment (r : Record) :
    (∀ a b : ℚ, r.zrange = PyVal.pair a b →
      zSegE r = Except.ok ("_z" ++ fmtFixed 1 a ++ "-" ++ fmtFixed 1 b)) ∧
    (r.zrange = PyVal.none → ∀ q : ℚ, r.z = PyVal.rat q →
      zSegE r = Except.ok ("_z" ++ fmtFixed 3 q)) ∧
    (r.zrange = PyVal.none → r.z = PyVal.none → zSegE r = Except.ok "") := by
  refine ⟨?_, ?_, ?_⟩
  · intro a b hab
    simp [zSegE, hab]
  · intro h0 q hq
    simp [zSegE, h0, hq, asNum]
  · intro h0 hz
    simp [zSegE, h0, hz]

/-- C7, witness: with both zrange (0.8, 1.6) and z 1.1 set, the range
wins. -/
theorem c7_redshift_segment_witness :
    zSegE rBothZ =
      Except.ok ("_z" ++ fmtFixed 1 (mkRat 8 10) ++ "-" ++
        fmtFixed 1 (mkRat 16 10)) := by
  exact (c7_redshift_segment rBothZ).1 (mkRat 8 10) (mkRat 16 10) rfl

/-- Helper: Python equality of a string against the empty string. -/
theorem pyEq_str_empty (s : String) :
    pyEq (PyVal.str s) (PyVal.str "") = decide (s = "") := rfl

/-- Helper: a nonempty string stays nonempty under joinPath. -/
theorem joinPath_ne_empty (a b : String) (hb : b ≠ "") :
    joinPath a b ≠ "" := by
  have hbl : b.length ≠ 0 := by
    intro h0
    apply hb
    cases b with
    | mk l =>
      cases l with
      | nil => rfl
      | cons c cs => simp [String.length] at h0
  unfold joinPath
  split
  · exact hb
  split
  · exact hb
  split <;>
  · intro hc
    have h2 := congrArg String.length hc
    simp only [String.length_append] at h2
    have h3 : ("" : String).length = 0 := rfl
    omega

/-- Helper: after a successful fdir derivation, fdir is a nonempty
string (so a second derivation is the identity). -/
theorem deriveFdirE_ok_ne (rm r1 : Record)
    (hd : deriveFdirE rm = Except.ok r1) :
    pyEq r1.fdir (PyVal.str "") = false := by
  unfold deriveFdirE at hd
  by_cases hcond : pyEq rm.fdir (PyVal.str "") = true
  · rw [if_pos hcond] at hd
    cases hmg : rm.mockgen <;> cases hft : rm.ftype <;>
      rw [hmg, hft] at hd <;> simp at hd
    rw [← hd]
    dsimp only
    rw [pyEq_str_empty]
    simp only [decide_eq_false_iff_not]
    apply joinPath_ne_empty
    split <;> decide
  · rw [if_neg hcond] at hd
    have hr : rm = r1 := by simpa using hd
    subst hr
    simpa using hcond

/-- C8.  get_path is deterministic: equal records under the same heap and
overrides produce identical results; moreover a successful call is stable
under repetition, calling get_path again on the record it returned yields
the same record, heap and path string. -/
theorem c8_deterministic (ra rb : Record) (h : Heap)
    (kw : List (String × PyVal)) (hab : ra = rb) :
    get_path ra h kw = get_path rb h kw ∧
    ∀ r1 h1 p, get_path ra h kw = Except.ok (r1, h1, p) →
      get_path r1 h1 [] = Except.ok (r1, h1, p) := by
  subst hab
  refine ⟨rfl, ?_⟩
  intro r1 h1 p hok
  obtain ⟨rm, -, hd, d, fname, hfd, hf, hp⟩ :=
    get_path_ok_shape ra h kw r1 h1 p hok
  have hne := deriveFdirE_ok_ne rm r1 hd
  have hd1 : deriveFdirE r1 = Except.ok r1 := by
    unfold deriveFdirE
    rw [hne]
    simp
  unfold get_path
  have hu1 : update r1 h1 [] = ((r1, h1), Option.none) := rfl
  rw [hu1]
  dsimp only
  rw [hd1]
  dsimp only
  rw [hf]
  dsimp only
  rw [hfd, hp]

/-- C8, witness. -/
theorem c8_deterministic_witness :
    get_path defaultRecord emptyHeap [] = get_path defaultRecord emptyHeap [] ∧
    get_path rDefaultAfter emptyHeap [] =
      Except.ok (rDefaultAfter, emptyHeap, defaultPath) := by
  refine ⟨(c8_deterministic defaultRecord defaultRecord emptyHeap [] rfl).1, ?_⟩
  exact (c8_deterministic defaultRecord defaultRecord emptyHeap [] rfl).2
    rDefaultAfter emptyHeap defaultPath rfl

/-! Helpers for C9: each name segment succeeds on a well-typed record, so
the only failure get_path can hit is the unassigned comp variable. -/

theorem isStr_spec (v : PyVal) (hv : isStr v = true) : ∃ s, v = PyVal.str s := by
  cases v <;> first | exact ⟨_, rfl⟩ | simp [isStr] at hv

theorem isNum_asNum (v : PyVal) (hv : isNum v = true) :
    ∃ q, asNum v = some q := by
  cases v <;> first | exact ⟨_, rfl⟩ | simp [isNum] at hv

theorem cutSegE_ok (r : Record) (hr : isNum r.rpcut = true)
    (ht : isNum r.thetacut = true) : ∃ s, cutSegE r = Except.ok s := by
  obtain ⟨a, ha⟩ := isNum_asNum _ hr
  obtain ⟨b, hb⟩ := isNum_asNum _ ht
  unfold cutSegE
  split
  · rw [ha]
    exact ⟨_, rfl⟩
  split
  · rw [hb]
    exact ⟨_, rfl⟩
  · exact ⟨"", rfl⟩

theorem zSegE_ok (r : Record) (hzr : isPairOrNone r.zrange = true)
    (hz : isNumOrNone r.z = true) : ∃ s, zSegE r = Except.ok s := by
  cases hv : r.zrange
  case pair a b =>
    have hp : zSegE r = Except.ok ("_z" ++ fmtFixed 1 a ++ "-" ++ fmtFixed 1 b) := by
      simp [zSegE, hv]
    exact ⟨_, hp⟩
  case none =>
    cases hz2 : r.z
    case none => exact ⟨"", by simp [zSegE, hv, hz2]⟩
    case rat q =>
      have hp : zSegE r = Except.ok ("_z" ++ fmtFixed 3 q) := by
        simp [zSegE, hv, hz2, asNum]
      exact ⟨_, hp⟩
    case int n =>
      have hp : zSegE r = Except.ok ("_z" ++ fmtFixed 3 (n : ℚ)) := by
        simp [zSegE, hv, hz2, asNum]
      exact ⟨_, hp⟩
    case bool b =>
      have hp : zSegE r =
          Except.ok ("_z" ++ fmtFixed 3 (if b = true then 1 else 0)) := by
        simp [zSegE, hv, hz2, asNum]
      exact ⟨_, hp⟩
    all_goals rw [hz2] at hz
    all_goals simp [isNumOrNone, isNum] at hz
  all_goals rw [hv] at hzr
  all_goals simp [isPairOrNone] at hzr

theorem directSegE_ok (r : Record) (hb : isBool r.directedges = true)
    (cut : String) : ∃ s, directSegE cut r = Except.ok s := by
  cases hv : r.directedges
  case bool b =>
    have hp : directSegE cut r =
        Except.ok (if cut ≠ "" ∧ b = true then "_directedges_max5000" else "") := by
      simp [directSegE, hv]
    exact ⟨_, hp⟩
  all_goals rw [hv] at hb
  all_goals simp [isBool] at hb

theorem sculptSegE_ok (h : Heap) (r : Record)
    (hs : sculptOk h r.sculpt_attrs = true) :
    ∃ s, sculptSegE h r = Except.ok s := by
  cases hv : r.sculpt_attrs
  case none => exact ⟨"", by simp [sculptSegE, hv]⟩
  case dictRef a =>
    rw [hv] at hs
    simp only [sculptOk] at hs
    cases hda : h.dicts[a]? with
    | none => rw [hda] at hs; simp at hs
    | some dd =>
      rw [hda] at hs
      dsimp only at hs
      rw [Option.isSome_iff_exists] at hs
      obtain ⟨l, hl⟩ := hs
      have hp : sculptSegE h r =
          Except.ok ("_ells" ++ String.join (l.map (fun i => toString i)) ++
            "_kobsmax" ++ fmtFixed 1 dd.kobsmax ++ "_ktmax" ++
            fmtFixed 1 dd.ktmax ++ "_capsig" ++ toString dd.capsig ++
            "_difflfac" ++ toString dd.difflfac ++ "_" ++ dd.covtype ++
            "cov") := by
        simp [sculptSegE, hv, hda, hl]
      exact ⟨_, hp⟩
  all_goals rw [hv] at hs
  all_goals simp [sculptOk] at hs

theorem optAttrE_ok (n : String) (v : PyVal) (hv : isIntOrNone v = true) :
    ∃ s, optAttrE n v = Except.ok s := by
  cases v
  case int k => exact ⟨_, rfl⟩
  case none => exact ⟨"", rfl⟩
  all_goals simp [isIntOrNone] at hv

theorem except_bind_ok {α β : Type} (a : α) (f : α → Except String β) :
    (Except.ok a >>= f) = f a := rfl

theorem except_bind_err {α β : Type} (e : String)
    (f : α → Except String β) :
    ((Except.error e : Except String α) >>= f) = Except.error e := rfl

/-- Helper: fnameE does not read fdir. -/
theorem fnameE_fdir_invariant (h : Heap) (r : Record) (v : PyVal) :
    fnameE h { r with fdir := v } = fnameE h r := rfl

/-- Helper: when every segment before it succeeds but the completeness
branch assigned nothing, the file-name format fails with the unbound comp
error. -/
theorem fnameE_unbound (h : Heap) (r : Record)
    (hcut : ∃ s, cutSegE r = Except.ok s)
    (hcomp : compSegE r = Except.ok Option.none)
    (hz : ∃ s, zSegE r = Except.ok s)
    (hdir : ∀ cut, ∃ s, directSegE cut r = Except.ok s)
    (hsc : ∃ s, sculptSegE h r = Except.ok s)
    (hft : ∃ s, pyStrE r.ftype = Except.ok s)
    (hmo : ∃ s, optAttrE "mock" r.realization = Except.ok s)
    (htr : ∃ s, pyStrE r.tracer = Except.ok s) :
    fnameE h r = Except.error unboundCompMsg := by
  obtain ⟨cut, hcut⟩ := hcut
  obtain ⟨z, hz⟩ := hz
  obtain ⟨dir, hdir⟩ := hdir cut
  obtain ⟨sc, hsc⟩ := hsc
  obtain ⟨ft, hft⟩ := hft
  obtain ⟨mo, hmo⟩ := hmo
  obtain ⟨tr, htr⟩ := htr
  simp [fnameE, hcut, hcomp, hz, hdir, hsc, hft, hmo, htr,
    except_bind_ok, except_bind_err]

/-- Helper: fdir derivation on a record with string-typed mockgen and
ftype succeeds and changes nothing but fdir. -/
theorem deriveFdirE_frame (r : Record) (hmgs : isStr r.mockgen = true)
    (hfts : isStr r.ftype = true) :
    ∃ r2, deriveFdirE r = Except.ok r2 ∧ r2 = { r with fdir := r2.fdir } := by
  by_cases hcond : pyEq r.fdir (PyVal.str "") = true
  · obtain ⟨mg, hmg⟩ := isStr_spec _ hmgs
    obtain ⟨ft, hft⟩ := isStr_spec _ hfts
    refine ⟨{ r with fdir := PyVal.str (joinPath
      ("/global/cfs/cdirs/desi/users/mpinon/" ++ mg ++ "GenMocksY1")
      (if strContains ft "corr" then "xi" else "pk")) }, ?_, rfl⟩
    unfold deriveFdirE
    rw [if_pos hcond, hmg, hft]
  · refine ⟨r, ?_, rfl⟩
    unfold deriveFdirE
    rw [if_neg hcond]

/-- C9.  With boolean completeness, the comp variable of get_path is
assigned exactly when the generation string contains first, second or
cubic; in particular it is assigned for each of the three documented
generation values, and for a well-typed record whose generation contains
none of the three substrings, get_path fails with the unbound-variable
error instead of returning a path. -/
theorem c9_comp_unreachable (r : Record) (h : Heap) (g : String) (c : Bool)
    (hw : wellTyped h r) (hg : r.mockgen = PyVal.str g)
    (hc : r.completeness = PyVal.bool c) :
    ((∃ s, compSegE r = Except.ok (some s)) ↔
      (strContains g "first" = true ∨ strContains g "second" = true ∨
        strContains g "cubic" = true)) ∧
    ((g = "first" ∨ g = "second" ∨ g = "cubic") →
      ∃ s, compSegE r = Except.ok (some s)) ∧
    (strContains g "first" = false → strContains g "second" = false →
      strContains g "cubic" = false →
      get_path r h [] = Except.error unboundCompMsg) := by
  obtain ⟨hfdir, hmg2, hft2, hreal, htr2, hreg, hzr, hz2, hwt, hnran,
    hlos, hcs, hnm, hbx, hrp, hth, hde, hsc2⟩ := hw
  have key : (∃ s, compSegE r = Except.ok (some s)) ↔
      (strContains g "first" = true ∨ strContains g "second" = true ∨
        strContains g "cubic" = true) := by
    cases hf1 : strContains g "first" <;>
      cases hf2 : strContains g "second" <;>
        cases hf3 : strContains g "cubic" <;>
          simp [compSegE, hc, hg, hf1, hf2, hf3]
  refine ⟨key, ?_, ?_⟩
  · rintro (rfl | rfl | rfl) <;> exact key.mpr (by decide)
  · intro hf1 hf2 hf3
    have hcomp : compSegE r = Except.ok Option.none := by
      simp [compSegE, hc, hg, hf1, hf2, hf3]
    obtain ⟨ftv, hftv⟩ := isStr_spec _ hft2
    obtain ⟨trv, htrv⟩ := isStr_spec _ htr2
    obtain ⟨r2, hder, hframe⟩ := deriveFdirE_frame r hmg2 hft2
    have hfname : fnameE h r2 = Except.error unboundCompMsg := by
      rw [hframe, fnameE_fdir_invariant]
      exact fnameE_unbound h r (cutSegE_ok r hrp hth) hcomp
        (zSegE_ok r hzr hz2) (directSegE_ok r hde) (sculptSegE_ok h r hsc2)
        ⟨ftv, by rw [hftv]; rfl⟩ (optAttrE_ok "mock" _ hreal)
        ⟨trv, by rw [htrv]; rfl⟩
    unfold get_path
    have hu : update r h [] = ((r, h), Option.none) := rfl
    rw [hu]
    dsimp only
    rw [hder]
    dsimp only
    rw [hfname]

/-- C9, witness: generation third (not containing first, second or cubic)
makes get_path fail with the unbound comp error. -/
theorem c9_comp_unreachable_witness :
    get_path rOddGen emptyHeap [] = Except.error unboundCompMsg := by
  exact (c9_comp_unreachable rOddGen emptyHeap "third" true (by decide)
    rfl rfl).2.2 (by decide) (by decide) (by decide)

/-- Helper: Python equality against a float literal, through the numeric
view. -/
theorem pyEq_rat_eq (v : PyVal) (q : ℚ) :
    pyEq v (PyVal.rat q) =
      (match asNum v with
        | some x => decide (x = q)
        | Option.none => false) := by
  cases v <;> rfl

/-- Helper: a true Python equality against a float literal determines the
numeric view. -/
theorem pyEq_rat_true (v : PyVal) (q : ℚ)
    (hv : pyEq v (PyVal.rat q) = true) : asNum v = some q := by
  rw [pyEq_rat_eq] at hv
  cases ha : asNum v with
  | none => rw [ha] at hv; cases hv
  | some x =>
    rw [ha] at hv
    have : x = q := by
      simpa using hv
    rw [this]

/-- Helper: merging a preset whose keys are all known succeeds. -/
theorem finishUpdate_ok (r : Record) (h : Heap)
    (opts : List (String × PyVal))
    (hk : opts.all (fun p => attrNames.contains p.1) = true) :
    ∃ r2 h2, finishUpdate r h opts = Except.ok (r2, h2) := by
  rcases hu : update r h opts with ⟨⟨r2, h2⟩, e⟩
  have he : e = Option.none := by
    have hall := update_keys_ok opts hk r h
    rw [hu] at hall
    exact hall
  subst he
  exact ⟨r2, h2, by simp [finishUpdate, hu]⟩

/-- C10.  Under generation cubic with an ELG-prefixed tracer,
set_default_config selects a preset only when the redshift point is
absent, 1.1 or 0.95; for any other redshift point the local
default_options is never assigned and the call fails with the
unbound-variable NameError before merging any preset. -/
theorem c10_cubic_presets (r : Record) (h : Heap) (t : String)
    (hmg : r.mockgen = PyVal.str "cubic") (ht : r.tracer = PyVal.str t)
    (helg : takeStr t 3 = "ELG") :
    ((pyEq r.z (PyVal.rat (mkRat 11 10)) = false ∧ r.z ≠ PyVal.none ∧
      pyEq r.z (PyVal.rat (mkRat 95 100)) = false) →
      set_default_config r h [] = Except.error nameErrOptions) ∧
    ((pyEq r.z (PyVal.rat (mkRat 11 10)) = true ∨ r.z = PyVal.none ∨
      pyEq r.z (PyVal.rat (mkRat 95 100)) = true) →
      ∃ r2 h2, set_default_config r h [] = Except.ok (r2, h2)) := by
  have e1 : pyEq (PyVal.str "cubic") (PyVal.str "first") = false := by decide
  have e2 : pyEq (PyVal.str "cubic") (PyVal.str "second") = false := by decide
  have e3 : pyEq (PyVal.str "cubic") (PyVal.str "cubic") = true := by decide
  constructor
  · rintro ⟨h11, hnone, h95⟩
    simp [set_default_config, update, hmg, ht, helg, e1, e2, e3, h11,
      hnone, h95]
  · rintro (h11 | hnone | h95)
    · have ha := pyEq_rat_true _ _ h11
      have h95f : pyEq r.z (PyVal.rat (mkRat 95 100)) = false := by
        rw [pyEq_rat_eq, ha]
        decide
      have hset : set_default_config r h [] = finishUpdate r h
          [("tracer", .str "ELG"), ("region", .none), ("zrange", .none),
           ("z", .rat (mkRat 11 10)), ("nmesh", .int 2048),
           ("boxsize", .int 2000),
           ("fdir", .str (joinPath cubicRoot "pk"))] := by
        simp [set_default_config, update, hmg, ht, helg, e1, e2, e3,
          h11, h95f]
      rw [hset]
      exact finishUpdate_ok r h _ (by decide)
    · have h11n : pyEq PyVal.none (PyVal.rat (mkRat 11 10)) = false := by
        decide
      have h95n : pyEq PyVal.none (PyVal.rat (mkRat 95 100)) = false := by
        decide
      have hset : set_default_config r h [] = finishUpdate r h
          [("tracer", .str "ELG"), ("region", .none), ("zrange", .none),
           ("z", .rat (mkRat 11 10)), ("nmesh", .int 2048),
           ("boxsize", .int 2000),
           ("fdir", .str (joinPath cubicRoot "pk"))] := by
        simp [set_default_config, update, hmg, ht, helg, e1, e2, e3,
          h11n, h95n, hnone]
      rw [hset]
      exact finishUpdate_ok r h _ (by decide)
    · have hset : set_default_config r h [] = finishUpdate r h
          [("tracer", .str "ELG"), ("region", .none), ("zrange", .none),
           ("z", r.z), ("cellsize", .int 6), ("boxsize", .int 2000),
           ("fdir", .str (joinPath cubicRoot "pk"))] := by
        simp [set_default_config, update, hmg, ht, helg, e1, e2, e3, h95]
      rw [hset]
      refine finishUpdate_ok r h _ ?_
      simp [attrNames]

/-- C10, witness: redshift point 2.0 leaves default_options unbound;
an absent redshift point selects the 1.1 preset. -/
theorem c10_cubic_presets_witness :
    set_default_config rCubicBadZ emptyHeap [] =
      Except.error nameErrOptions ∧
    (∃ r2 h2, set_default_config rCubicNoZ emptyHeap [] =
      Except.ok (r2, h2)) := by
  constructor
  · exact (c10_cubic_presets rCubicBadZ emptyHeap "ELG" rfl rfl
      (by decide)).1 ⟨by decide, by decide, by decide⟩
  · exact (c10_cubic_presets rCubicNoZ emptyHeap "ELG" rfl rfl
      (by decide)).2 (Or.inr (Or.inl rfl))

end DesiFiles
